import Mathlib

/-!
Verification of the Connect-N cross-thread rendezvous protocol.

This file gives a shallow embedding of the synchronization core of the
repository (`connectn/exporter.py`: `SharedBuffer`, `SafeThread`,
`get_choice`), of the game board (`a6board.py`: `Board`) and of the
coordinator tick (`connectn/gamescene.py`: `GameScene._checkForPlayer`,
`GameScene._processAI`), and proves or refutes the specification claims
about them.

Modelling conventions:
* the shared buffer is a record of its three fields (`data`, `blocked`,
  `invalid`); every method runs under the single condition-variable lock,
  so each method is one atomic state transformer;
* `block()` is split into its entry step (`callBlock`: set `blocked`,
  run the first loop iteration) and a wake-up step (`wake`: what one
  iteration of the `while self.blocked` loop does after `cond.wait()`
  returns).  A `BlockStatus` records whether the blocked thread is still
  parked in `cond.wait()` (`waiting`), has returned normally
  (`returned`), or has raised the `RuntimeError` used for channel
  invalidation (`failed`);
* Python exceptions are modelled with `Except` / explicit outcome types;
* rendering-only effects (labels, audio, piece coordinates) are omitted;
  the fields the claims mention (game board, scene state, piece
  existence) are kept.
-/

/-- A message in the shared buffer: `(identity, isPush, payload)`,
as posted by `get_choice` / `set_choice` and by the game scene. -/
def Msg (α : Type) : Type := String × Bool × Option α

/-- The shared state of `SharedBuffer` (exporter.py): the queue `data`,
the `blocked` flag and the `invalid` flag. -/
structure SharedBuffer (α : Type) where
  data : List α
  blocked : Bool
  invalid : Bool
deriving DecidableEq

/-- The state set up by `_private_init_`: empty queue, not blocked, valid. -/
def SharedBuffer.start (α : Type) : SharedBuffer α :=
  { data := [], blocked := false, invalid := false }

/-- `post(value)`: appends to the end of `data` unless the buffer is invalid. -/
def SharedBuffer.post (s : SharedBuffer α) (v : α) : SharedBuffer α :=
  if s.invalid then s else { s with data := s.data ++ [v] }

/-- `poll()`: pops the front of `data`; returns `none` (leaving the buffer
unchanged) if the buffer is invalid or the queue is empty — `pop(0)` on an
empty list raises `IndexError`, which the bare `except` swallows. -/
def SharedBuffer.poll (s : SharedBuffer α) : Option α × SharedBuffer α :=
  if s.invalid then (none, s)
  else
    match s.data with
    | [] => (none, s)
    | v :: rest => (some v, { s with data := rest })

/-- `unblock()`: clears `blocked` (and notifies) unless the buffer is invalid. -/
def SharedBuffer.unblock (s : SharedBuffer α) : SharedBuffer α :=
  if s.invalid then s else { s with blocked := false }

/-- `invalidate()`: sets `invalid` and notifies all waiters. -/
def SharedBuffer.invalidate (s : SharedBuffer α) : SharedBuffer α :=
  { s with invalid := true }

/-- `reset()`: restores the initial state, but only if the buffer is invalid. -/
def SharedBuffer.reset (s : SharedBuffer α) : SharedBuffer α :=
  if s.invalid then { data := [], blocked := false, invalid := false } else s

/-- `isBlocked()`: reads the `blocked` flag. -/
def SharedBuffer.isBlocked (s : SharedBuffer α) : Bool := s.blocked

/-- `isInvalid()`: reads the `invalid` flag. -/
def SharedBuffer.isInvalid (s : SharedBuffer α) : Bool := s.invalid

/-- Status of the thread executing `block()`: still parked in
`cond.wait()`, returned normally, or raised the `RuntimeError`. -/
inductive BlockStatus
  | waiting
  | returned
  | failed
deriving DecidableEq

/-- Entry of `block()`: sets `blocked := True`, then the first iteration of
`while self.blocked` runs — the guard is true (it was just set), so the
thread raises `RuntimeError` if `invalid` holds and otherwise parks in
`cond.wait()`. -/
def SharedBuffer.callBlock (s : SharedBuffer α) : SharedBuffer α × BlockStatus :=
  let s2 : SharedBuffer α := { s with blocked := true }
  if s2.invalid then (s2, .failed) else (s2, .waiting)

/-- One wake-up of a thread parked in `block()`'s `cond.wait()`: the loop
guard `self.blocked` is re-tested; if it is now false the call returns,
otherwise the body raises `RuntimeError` when `invalid` holds, else the
thread parks again. -/
def SharedBuffer.wake (s : SharedBuffer α) : SharedBuffer α × BlockStatus :=
  if s.blocked then
    if s.invalid then (s, .failed) else (s, .waiting)
  else (s, .returned)

/-- One operation on the shared buffer, for reasoning about operation
sequences.  `block` stands for the entry step of `block()` (the effect the
caller has on the shared state before parking). -/
inductive BufOp (α : Type)
  | post (v : α)
  | poll
  | block
  | unblock
  | invalidate
  | reset
deriving DecidableEq

/-- Effect of one operation on the shared state. -/
def SharedBuffer.applyOp (s : SharedBuffer α) : BufOp α → SharedBuffer α
  | .post v => s.post v
  | .poll => s.poll.2
  | .block => s.callBlock.1
  | .unblock => s.unblock
  | .invalidate => s.invalidate
  | .reset => s.reset

/-- Runs a sequence of operations left to right. -/
def SharedBuffer.runOps (s : SharedBuffer α) (ops : List (BufOp α)) : SharedBuffer α :=
  ops.foldl SharedBuffer.applyOp s

/-- The alternation discipline the rendezvous protocol imposes on buffer
traffic: a message may be posted only when the previously posted message
has already been polled.  `pending` records whether a posted message is
still unconsumed. -/
def alternating (pending : Bool) : List (BufOp α) → Bool
  | [] => true
  | .post _ :: rest => !pending && alternating true rest
  | .poll :: rest => alternating false rest
  | _ :: rest => alternating pending rest

/-! ### Claims C1, C2, C3, C5 about the shared buffer -/

/-- Helper invariant for the alternation discipline: the queue never holds
more than one element, and when no post is pending (and the buffer is
valid) the queue is empty. -/
theorem alternating_invariant (ops : List (BufOp α)) :
    ∀ (s : SharedBuffer α) (pending : Bool),
      s.data.length ≤ 1 →
      (pending = false → s.invalid = false → s.data = []) →
      alternating pending ops = true →
      (s.runOps ops).data.length ≤ 1 := by
  induction ops with
  | nil =>
      intro s pending hlen _ _
      exact hlen
  | cons op rest ih =>
      intro s pending hlen hemp halt
      cases op with
      | post v =>
          simp only [alternating, Bool.and_eq_true, Bool.not_eq_true] at halt
          obtain ⟨hp, halt⟩ := halt
          refine ih (s.post v) true ?_ (by simp) halt
          by_cases hi : s.invalid
          · simpa [SharedBuffer.post, hi] using hlen
          · have hd : s.data = [] := hemp (by simpa using hp) (by simpa using hi)
            simp [SharedBuffer.post, hi, hd]
      | poll =>
          simp only [alternating] at halt
          refine ih s.poll.2 false ?_ ?_ halt
          · by_cases hi : s.invalid
            · simpa [SharedBuffer.poll, hi] using hlen
            · cases hd : s.data with
              | nil => simp [SharedBuffer.poll, hi, hd]
              | cons v tl =>
                  have : tl.length ≤ 0 := by
                    have := hlen
                    rw [hd] at this
                    simpa using this
                  simp [SharedBuffer.poll, hi, hd]
                  omega
          · intro _ hi
            by_cases hi0 : s.invalid
            · simp [SharedBuffer.poll, hi0] at hi
            · cases hd : s.data with
              | nil => simp [SharedBuffer.poll, hi0, hd]
              | cons v tl =>
                  have : tl.length ≤ 0 := by
                    have := hlen
                    rw [hd] at this
                    simpa using this
                  have htl : tl = [] := List.length_eq_zero.mp (Nat.le_zero.mp this)
                  simp [SharedBuffer.poll, hi0, hd, htl]
      | block =>
          simp only [alternating] at halt
          have h1 : (s.callBlock.1).data = s.data := by
            by_cases hi : s.invalid <;> simp [SharedBuffer.callBlock, hi]
          have h2 : (s.callBlock.1).invalid = s.invalid := by
            by_cases hi : s.invalid <;> simp [SharedBuffer.callBlock, hi]
          refine ih s.callBlock.1 pending ?_ ?_ halt
          · rw [h1]; exact hlen
          · intro hp hi
            rw [h1]
            exact hemp hp (by rw [← h2]; exact hi)
      | unblock =>
          simp only [alternating] at halt
          refine ih s.unblock pending ?_ ?_ halt
          · by_cases hi : s.invalid <;> simpa [SharedBuffer.unblock, hi] using hlen
          · intro hp hi
            by_cases hi0 : s.invalid
            · simp [SharedBuffer.unblock, hi0] at hi
            · simp [SharedBuffer.unblock, hi0] at hi ⊢
              exact hemp hp (by simpa using hi0)
      | invalidate =>
          simp only [alternating] at halt
          refine ih s.invalidate pending ?_ ?_ halt
          · simpa [SharedBuffer.invalidate] using hlen
          · intro _ hi
            simp [SharedBuffer.invalidate] at hi
      | reset =>
          simp only [alternating] at halt
          refine ih s.reset pending ?_ ?_ halt
          · by_cases hi : s.invalid
            · simp [SharedBuffer.reset, hi]
            · simpa [SharedBuffer.reset, hi] using hlen
          · intro hp hi
            by_cases hi0 : s.invalid
            · simp [SharedBuffer.reset, hi0]
            · simp [SharedBuffer.reset, hi0] at hi ⊢
              exact hemp hp (by simpa using hi0)

/-- C1 (counterexample): the buffer does not itself bound the queue depth —
two consecutive `post` calls (a sequence of post/block/unblock operations)
leave two messages in the internal list, so its length exceeds 1. -/
theorem slot_depth_counterexample :
    (SharedBuffer.runOps (SharedBuffer.start Nat)
        [BufOp.post 0, BufOp.post 1]).data.length = 2 := by
  rfl

/-- Truncating a sequence preserves the alternation discipline. -/
theorem alternating_take (ops : List (BufOp α)) :
    ∀ (pending : Bool) (n : Nat), alternating pending ops = true →
      alternating pending (ops.take n) = true := by
  induction ops with
  | nil => intro pending n _; cases n <;> simp [alternating]
  | cons op rest ih =>
      intro pending n halt
      cases n with
      | zero => simp [alternating]
      | succ m =>
          cases op with
          | post v =>
              simp only [List.take_succ_cons, alternating, Bool.and_eq_true] at halt ⊢
              exact ⟨halt.1, ih true m halt.2⟩
          | poll =>
              simp only [List.take_succ_cons, alternating] at halt ⊢
              exact ih false m halt
          | block =>
              simp only [List.take_succ_cons, alternating] at halt ⊢
              exact ih pending m halt
          | unblock =>
              simp only [List.take_succ_cons, alternating] at halt ⊢
              exact ih pending m halt
          | invalidate =>
              simp only [List.take_succ_cons, alternating] at halt ⊢
              exact ih pending m halt
          | reset =>
              simp only [List.take_succ_cons, alternating] at halt ⊢
              exact ih pending m halt

/-- C1 (amended): for every sequence of post/poll/block/unblock (and even
invalidate/reset) operations obeying the rendezvous alternation discipline —
each posted message is polled before the next post — the internal buffer
list holds at most one message at every point of the sequence. -/
theorem slot_depth_le_one (ops : List (BufOp α)) (n : Nat)
    (halt : alternating false ops = true) :
    (SharedBuffer.runOps (SharedBuffer.start α) (ops.take n)).data.length ≤ 1 :=
  alternating_invariant (ops.take n) (SharedBuffer.start α) false
    (by simp [SharedBuffer.start]) (by simp [SharedBuffer.start])
    (alternating_take ops false n halt)

theorem slot_depth_le_one_witness :
    (SharedBuffer.runOps (SharedBuffer.start Nat)
        ([BufOp.post 7, BufOp.block, BufOp.poll, BufOp.unblock, BufOp.post 3].take 5)).data.length ≤ 1 :=
  slot_depth_le_one [BufOp.post 7, BufOp.block, BufOp.poll, BufOp.unblock, BufOp.post 3] 5 (by decide)

/-- C2: a `block()` that starts on an invalidated buffer fails at its entry
step (the `RuntimeError` is raised before the thread ever parks in
`cond.wait()`), and a thread that entered `block()` and is then hit by
`invalidate()` fails at its next wake-up. -/
theorem block_fails_after_invalidate (s : SharedBuffer α) :
    ((s.invalidate).callBlock.2 = BlockStatus.failed) ∧
    (s.isBlocked = true → ((s.invalidate).wake).2 = BlockStatus.failed) := by
  constructor
  · simp [SharedBuffer.invalidate, SharedBuffer.callBlock]
  · intro hb
    have hb2 : s.blocked = true := hb
    simp [SharedBuffer.invalidate, SharedBuffer.wake, hb2]

theorem block_fails_after_invalidate_witness :
    ((((SharedBuffer.start Nat).callBlock.1).invalidate).callBlock.2
        = BlockStatus.failed) ∧
    ((((SharedBuffer.start Nat).callBlock.1).invalidate).wake.2
        = BlockStatus.failed) :=
  ⟨(block_fails_after_invalidate ((SharedBuffer.start Nat).callBlock.1)).1,
   (block_fails_after_invalidate ((SharedBuffer.start Nat).callBlock.1)).2 rfl⟩

/-- C3 (counterexample): `invalidate()` makes `invalid` true, but the
`reset()` operation of the very same channel instance makes it false
again — invalidity is not permanent under all channel operations. -/
theorem invalid_permanence_counterexample :
    (((SharedBuffer.start Nat).invalidate).isInvalid = true) ∧
    ((((SharedBuffer.start Nat).invalidate).applyOp BufOp.reset).isInvalid = false) := by
  constructor <;> rfl

/-- C3 (amended): once `invalidate()` sets `invalid`, every operation other
than `reset()` preserves it — only `reset()` clears the flag. -/
theorem invalid_permanent_without_reset (ops : List (BufOp α)) :
    ∀ (s : SharedBuffer α), BufOp.reset ∉ ops → s.isInvalid = true →
      (s.runOps ops).isInvalid = true := by
  induction ops with
  | nil => intro s _ hinv; exact hinv
  | cons op rest ih =>
      intro s hres hinv
      have hinv2 : s.invalid = true := hinv
      have hres2 : BufOp.reset ∉ rest := fun h => hres (List.mem_cons_of_mem _ h)
      have hop : (s.applyOp op).isInvalid = true := by
        cases op with
        | post v =>
            simp [SharedBuffer.applyOp, SharedBuffer.post, SharedBuffer.isInvalid, hinv2]
        | poll =>
            simp [SharedBuffer.applyOp, SharedBuffer.poll, SharedBuffer.isInvalid, hinv2]
        | block =>
            simp [SharedBuffer.applyOp, SharedBuffer.callBlock, SharedBuffer.isInvalid, hinv2]
        | unblock =>
            simp [SharedBuffer.applyOp, SharedBuffer.unblock, SharedBuffer.isInvalid, hinv2]
        | invalidate =>
            simp [SharedBuffer.applyOp, SharedBuffer.invalidate, SharedBuffer.isInvalid]
        | reset =>
            exact absurd (List.mem_cons_self _ _) hres
      exact ih (s.applyOp op) hres2 hop

theorem invalid_permanent_without_reset_witness :
    (((SharedBuffer.start Nat).invalidate).runOps
        [BufOp.post 5, BufOp.poll, BufOp.unblock, BufOp.block, BufOp.invalidate]).isInvalid
      = true :=
  invalid_permanent_without_reset
    [BufOp.post 5, BufOp.poll, BufOp.unblock, BufOp.block, BufOp.invalidate]
    ((SharedBuffer.start Nat).invalidate) (by decide) rfl

/-- C5 (counterexample): `block()` on an invalidated buffer fails with the
`RuntimeError`, yet `isBlocked()` afterwards returns true — the raise in
`block()` happens with `self.blocked` still set, so a failed `block()`
does not clear the flag. -/
theorem blocked_iff_waiting_counterexample :
    (((SharedBuffer.start Nat).invalidate).callBlock.2 = BlockStatus.failed) ∧
    (((SharedBuffer.start Nat).invalidate).callBlock.1.isBlocked = true) := by
  constructor <;> rfl

/-- C5 (amended): `blocked` is set for the whole time a thread waits inside
`block()`; `block()` returns normally exactly when the flag has been
cleared (by `unblock()`), so `isBlocked()` is false after a normal return;
but `block()` fails with the invalidation `RuntimeError` exactly when the
flag is still set and the buffer is invalid, so after a failed `block()`
the flag remains true. -/
theorem blocked_flag_semantics (s : SharedBuffer α) :
    (s.callBlock.1.isBlocked = true) ∧
    (s.wake.2 = BlockStatus.returned ↔ s.isBlocked = false) ∧
    (s.wake.2 = BlockStatus.failed ↔ (s.isBlocked = true ∧ s.isInvalid = true)) := by
  refine ⟨?_, ?_, ?_⟩
  · by_cases hi : s.invalid <;> simp [SharedBuffer.callBlock, SharedBuffer.isBlocked, hi]
  · by_cases hb : s.blocked
    · by_cases hi : s.invalid <;>
        simp [SharedBuffer.wake, SharedBuffer.isBlocked, hb, hi]
    · simp [SharedBuffer.wake, SharedBuffer.isBlocked, hb]
  · by_cases hb : s.blocked
    · by_cases hi : s.invalid <;>
        simp [SharedBuffer.wake, SharedBuffer.isBlocked, SharedBuffer.isInvalid, hb, hi]
    · simp [SharedBuffer.wake, SharedBuffer.isBlocked, hb]

/-! ### SafeThread (exporter.py): the cancelable worker -/

/-- The Python exceptions relevant to the worker boundary.  `systemExit` is
the exception `kill()` injects asynchronously; the others stand for
ordinary faults of the target computation. -/
inductive PyExn
  | systemExit
  | runtimeError
  | indexError
  | typeError
  | other
deriving DecidableEq

/-- How one execution of the thread target ends: normal return, or an
uncaught exception. -/
inductive RunOutcome
  | ok
  | raised (e : PyExn)
deriving DecidableEq

/-- The `SafeThread` fields the failure semantics depend on. -/
structure SafeThread where
  silent : Bool
  crashed : Bool
deriving DecidableEq

/-- A fresh `SafeThread` (from `__init__`): `silent=True`, `crashed=False`. -/
def SafeThread.mk0 : SafeThread := { silent := true, crashed := false }

/-- Result of the worker entry point: the updated thread record, the
exception that escaped the entry point (if any), and whether the fault was
logged via `traceback.print_exc()`. -/
structure SafeRunResult where
  thread : SafeThread
  escaped : Option PyExn
  logged : Bool
deriving DecidableEq

/-- `_safe_run_`: runs the target under a bare `except` clause.  A bare
`except` in Python catches every exception, `SystemExit` included; the
handler sets `_crashed` and logs the fault when `silent` is false.  Nothing
ever escapes the entry point. -/
def SafeThread.safe_run_ (t : SafeThread) (outcome : RunOutcome) : SafeRunResult :=
  match outcome with
  | .ok => { thread := t, escaped := none, logged := false }
  | .raised _ =>
      { thread := { t with crashed := true }, escaped := none, logged := !t.silent }

/-- `hasCrashed()` — the `crashed` property. -/
def SafeThread.hasCrashed (t : SafeThread) : Bool := t.crashed

/-- The exception `kill()` injects into the target thread with
`PyThreadState_SetAsyncExc`. -/
def killInjected : PyExn := PyExn.systemExit

/-! ### Claims C6 and C8 about the worker boundary -/

/-- C6: an uncaught fault inside the target is swallowed at the worker
boundary — nothing escapes `_safe_run_` — and afterwards `hasCrashed()` is
true; the fault is logged exactly when `silent` is false. -/
theorem worker_fault_contained (t : SafeThread) (e : PyExn) :
    ((t.safe_run_ (RunOutcome.raised e)).escaped = none) ∧
    ((t.safe_run_ (RunOutcome.raised e)).thread.hasCrashed = true) ∧
    ((t.safe_run_ (RunOutcome.raised e)).logged = true ↔ t.silent = false) := by
  refine ⟨rfl, rfl, ?_⟩
  cases h : t.silent <;> simp [SafeThread.safe_run_, SafeThread.hasCrashed, h]

/-- C8: the `SystemExit` that `kill()` injects is caught by the same bare
`except` as any other fault, so a deliberately killed worker ends with
`hasCrashed() = true` — via `hasCrashed()` alone it is indistinguishable
from a worker that crashed on its own fault. -/
theorem killed_worker_marked_crashed (t : SafeThread) (e : PyExn) :
    ((t.safe_run_ (RunOutcome.raised killInjected)).thread.hasCrashed = true) ∧
    ((t.safe_run_ (RunOutcome.raised killInjected)).thread.hasCrashed
      = (t.safe_run_ (RunOutcome.raised e)).thread.hasCrashed) := by
  exact ⟨rfl, rfl⟩

/-! ### get_choice (exporter.py) -/

/-- The part of `get_choice(ident)` that runs once `block()` has returned:
`tag,push,value = buffer.poll()`, then the tag check.  If `poll()` yields
`None` the tuple unpacking raises a `TypeError`; that case is modelled as
`none`.  Otherwise the result is the polled payload when the tag equals
`ident`, and `None` when the tag mismatches. -/
def get_choice_resume (ident : String) (s : SharedBuffer (Msg α)) :
    Option (Option α × SharedBuffer (Msg α)) :=
  match s.poll with
  | (some m, s2) => some ((if m.1 = ident then m.2.2 else none), s2)
  | (none, _) => none

/-- The first half of `get_choice(ident)`: post the request message
`(ident, False, None)` and enter `block()`. -/
def get_choice_entry (ident : String) (s : SharedBuffer (Msg α)) :
    SharedBuffer (Msg α) × BlockStatus :=
  (s.post (ident, false, none)).callBlock

/-- C7: when `get_choice` unblocks and the channel holds a response message
`(tag, isPush, payload)`, it returns the payload if `tag` equals `ident`
and `None` if the tag mismatches. -/
theorem get_choice_tag_check (ident tag : String) (push : Bool) (v : Option Nat)
    (rest : List (Msg Nat)) (s : SharedBuffer (Msg Nat))
    (hinv : s.isInvalid = false) (hdata : s.data = (tag, push, v) :: rest) :
    get_choice_resume ident s
      = some ((if tag = ident then v else none), { s with data := rest }) := by
  have hinv2 : s.invalid = false := hinv
  simp [get_choice_resume, SharedBuffer.poll, hinv2, hdata]

theorem get_choice_tag_check_witness :
    (get_choice_resume "red"
        { data := [("red", true, some 4), ("blue", false, none)],
          blocked := false, invalid := false }
      = some (some 4,
          ({ data := [("blue", false, none)], blocked := false, invalid := false }
            : SharedBuffer (Msg Nat)))) ∧
    (get_choice_resume "red"
        ({ data := [("blue", true, some 4)], blocked := false, invalid := false }
          : SharedBuffer (Msg Nat))
      = some (none,
          { data := [], blocked := false, invalid := false })) := by
  constructor
  · have h := get_choice_tag_check "red" "red" true (some 4) [("blue", false, none)]
      { data := [("red", true, some 4), ("blue", false, none)],
        blocked := false, invalid := false } rfl rfl
    simpa using h
  · have h := get_choice_tag_check "red" "blue" true (some 4) []
      { data := [("blue", true, some 4)], blocked := false, invalid := false } rfl rfl
    have hne : ("blue" : String) ≠ "red" := by decide
    simpa [hne] using h

/-! ### Board (a6board.py) -/

/-- The empty-cell marker (a6consts.py). -/
def NOBODY : String := ""

/-- The board state (a6board.py): dimensions, win streak, the grid
`_board` (row 0 at the bottom, `_board[r][c]` the cell in row `r`, column
`c`) and the move list `_moves`. -/
structure Board where
  width : Nat
  height : Nat
  streak : Nat
  board : List (List String)
  moves : List (Nat × Nat)
deriving DecidableEq

/-- `getColor(r,c)`: the cell `self._board[r][c]` (total via defaults; the
claims keep the indices in range). -/
def Board.getColor (b : Board) (r c : Nat) : String :=
  (b.board.getD r []).getD c NOBODY

/-- The loop of `findAvailableRow`, from row `r` upwards: the first row
whose cell in column `col` is `NOBODY`, else the height. -/
def Board.findAvailFrom (b : Board) (col r : Nat) : Nat :=
  if h : r < b.height then
    if b.getColor r col = NOBODY then r else b.findAvailFrom col (r + 1)
  else b.height
termination_by b.height - r
decreasing_by omega

/-- `findAvailableRow(col)`: `for r in range(self._height): if
self._board[r][col] == NOBODY: return r` — and `return self._height` when
the loop falls through. -/
def Board.findAvailableRow (b : Board) (col : Nat) : Nat :=
  b.findAvailFrom col 0

/-- `isFullColumn(col)`: tests the top cell `self._board[self._height-1][col]`. -/
def Board.isFullColumn (b : Board) (col : Nat) : Bool :=
  b.getColor (b.height - 1) col != NOBODY

/-- The assignment `self._board[row][column] = color`. -/
def Board.setColor (b : Board) (r c : Nat) (v : String) : Board :=
  { b with board := b.board.set r ((b.board.getD r []).set c v) }

/-- `place(column,color)`: find the available row; return `-1` if the
column is full, else write the color, record the move, and return the row. -/
def Board.place (b : Board) (column : Nat) (color : String) : Int × Board :=
  let row := b.findAvailableRow column
  if row = b.height then (-1, b)
  else
    let b2 := b.setColor row column color
    ((row : Int), { b2 with moves := b2.moves ++ [(row, column)] })

/-- `undoPlace()`: if any move was made, pop the last `(row,col)` from
`_moves` and blank that cell. -/
def Board.undoPlace (b : Board) : Board :=
  match b.moves.getLast? with
  | none => b
  | some (row, col) =>
      let b2 := b.setColor row col NOBODY
      { b2 with moves := b.moves.dropLast }

/-! ### Claim C9 -/

/-- If every row of column `col` from `r` on is occupied, the
`findAvailableRow` loop falls through and yields the height. -/
theorem findAvailFrom_full (b : Board) (col : Nat) :
    ∀ k r, b.height ≤ r + k →
      (∀ r2, r ≤ r2 → r2 < b.height → b.getColor r2 col ≠ NOBODY) →
      b.findAvailFrom col r = b.height := by
  intro k
  induction k with
  | zero =>
      intro r hk _
      unfold Board.findAvailFrom
      rw [dif_neg (by omega)]
  | succ m ih =>
      intro r hk hfull
      unfold Board.findAvailFrom
      by_cases h : r < b.height
      · rw [dif_pos h, if_neg (hfull r le_rfl h)]
        exact ih (r + 1) (by omega) (fun r2 hr2 => hfull r2 (by omega))
      · rw [dif_neg h]

/-- C9: for a full column — every cell occupied — `findAvailableRow`
returns the board height, never `-1`; the presentation fallback that
compares the result with `-1` can never observe `-1`. -/
theorem full_column_never_minus_one (b : Board) (col : Nat)
    (hfull : ∀ r, r < b.height → b.getColor r col ≠ NOBODY) :
    b.findAvailableRow col = b.height ∧ ((b.findAvailableRow col : Int) ≠ -1) := by
  have h : b.findAvailableRow col = b.height :=
    findAvailFrom_full b col b.height 0 (by omega) (fun r2 _ hr2 => hfull r2 hr2)
  refine ⟨h, ?_⟩
  rw [h]
  intro hc
  omega

theorem full_column_never_minus_one_witness :
    Board.findAvailableRow
        { width := 2, height := 2, streak := 2,
          board := [["r", "b"], ["r", "b"]], moves := [(0,0),(0,1),(1,0),(1,1)] } 0
      = 2 ∧
    ((Board.findAvailableRow
        { width := 2, height := 2, streak := 2,
          board := [["r", "b"], ["r", "b"]], moves := [(0,0),(0,1),(1,0),(1,1)] } 0 : Int)
      ≠ -1) :=
  full_column_never_minus_one
    { width := 2, height := 2, streak := 2,
      board := [["r", "b"], ["r", "b"]], moves := [(0,0),(0,1),(1,0),(1,1)] } 0
    (by decide)

/-! ### Claim C10 -/

/-- An in-range `getD` is a member of the list. -/
theorem list_getD_mem {β : Type} (l : List β) (i : Nat) (d : β) (h : i < l.length) :
    l.getD i d ∈ l := by
  rw [List.getD_eq_getElem?_getD, List.getElem?_eq_getElem h]
  simp

/-- Writing back the value already stored at an in-range index is a no-op. -/
theorem list_set_getD_self {β : Type} (l : List β) :
    ∀ i d, i < l.length → l.set i (l.getD i d) = l := by
  induction l with
  | nil => intro i d h; simp at h
  | cons x xs ih =>
      intro i d h
      cases i with
      | zero => rfl
      | succ j =>
          simp only [List.getD_cons_succ, List.set_cons_succ]
          rw [ih j d (by simpa using h)]

/-- Reading an in-range index just after setting it yields the new value. -/
theorem list_getD_set {β : Type} (l : List β) :
    ∀ i a d, i < l.length → (l.set i a).getD i d = a := by
  induction l with
  | nil => intro i a d h; simp at h
  | cons x xs ih =>
      intro i a d h
      cases i with
      | zero => rfl
      | succ j =>
          simp only [List.getD_cons_succ, List.set_cons_succ]
          exact ih j a d (by simpa using h)

/-- If some row of column `col` from `r` on is free, the `findAvailableRow`
loop stops strictly below the height, on a free cell. -/
theorem findAvailFrom_finds (b : Board) (col : Nat) :
    ∀ k r, b.height ≤ r + k →
      (∃ r2, r ≤ r2 ∧ r2 < b.height ∧ b.getColor r2 col = NOBODY) →
      b.findAvailFrom col r < b.height ∧
        b.getColor (b.findAvailFrom col r) col = NOBODY := by
  intro k
  induction k with
  | zero =>
      intro r hk hex
      obtain ⟨r2, hle, hlt, _⟩ := hex
      omega
  | succ m ih =>
      intro r hk hex
      obtain ⟨r2, hle, hlt, hemp⟩ := hex
      have hr : r < b.height := lt_of_le_of_lt hle hlt
      unfold Board.findAvailFrom
      rw [dif_pos hr]
      by_cases hc : b.getColor r col = NOBODY
      · rw [if_pos hc]
        exact ⟨hr, hc⟩
      · rw [if_neg hc]
        apply ih (r + 1) (by omega)
        refine ⟨r2, ?_, hlt, hemp⟩
        rcases Nat.eq_or_lt_of_le hle with he | hl
        · exact absurd (he ▸ hemp) hc
        · omega

/-- C10: on a well-formed board, placing a piece in a non-full column and
then undoing the placement restores the board exactly — grid contents and
move list are as before the `place` call. -/
theorem place_undo_roundtrip (b : Board) (column : Nat) (color : String)
    (hrows : b.board.length = b.height)
    (hcols : ∀ row ∈ b.board, row.length = b.width)
    (hcol : column < b.width)
    (hh : 0 < b.height)
    (hnf : b.isFullColumn column = false) :
    ((b.place column color).2).undoPlace = b := by
  have hnf2 : b.getColor (b.height - 1) column = NOBODY := by
    simpa [Board.isFullColumn, bne_eq_false_iff_eq] using hnf
  have hfind : b.findAvailableRow column < b.height ∧
      b.getColor (b.findAvailableRow column) column = NOBODY := by
    unfold Board.findAvailableRow
    exact findAvailFrom_finds b column b.height 0 (by omega)
      ⟨b.height - 1, Nat.zero_le _, by omega, hnf2⟩
  obtain ⟨hlt, hcell⟩ := hfind
  set row := b.findAvailableRow column with hrowdef
  set rl := b.board.getD row [] with hrldef
  have hrlt : row < b.board.length := by rw [hrows]; exact hlt
  have hrlen : rl.length = b.width := hcols rl (list_getD_mem b.board row [] hrlt)
  have hcell2 : rl.getD column NOBODY = NOBODY := hcell
  have hne : ¬ (row = b.height) := by omega
  have hG : (b.board.set row (rl.set column color)).set row
      (((b.board.set row (rl.set column color)).getD row []).set column NOBODY)
      = b.board := by
    rw [list_getD_set b.board row (rl.set column color) [] hrlt]
    rw [List.set_set, List.set_set]
    rw [← hcell2]
    rw [list_set_getD_self rl column NOBODY (by rw [hrlen]; exact hcol)]
    exact list_set_getD_self b.board row [] hrlt
  simp only [Board.place, Board.setColor, Board.undoPlace, ← hrowdef, if_neg hne,
    ← hrldef]
  simp only [List.getLast?_concat, List.dropLast_concat]
  rw [hG]

theorem place_undo_roundtrip_witness :
    (Board.place
        { width := 2, height := 2, streak := 2,
          board := [["", ""], ["", ""]], moves := [] } 0 "r").2.undoPlace
      = { width := 2, height := 2, streak := 2,
          board := [["", ""], ["", ""]], moves := [] } :=
  place_undo_roundtrip
    { width := 2, height := 2, streak := 2,
      board := [["", ""], ["", ""]], moves := [] }
    0 "r" rfl (by decide) (by decide) (by decide) (by decide)

/-! ### GameScene (gamescene.py): the coordinator's polling tick -/

